import Mathlib

/-!
Verification of the music-bingo controller (music_bingo.py, library_manager.py).

The Python program is shallowly embedded: the mutable attributes of
MusicBingoApp become an explicit record `AppState`, each method becomes a
pure state transformer, and the two sources of randomness
(random.sample and random.shuffle) are made explicit by passing the chosen
index lists as parameters.  UI-only effects (tkinter widgets, pygame mixer
calls, message boxes) are not part of the modelled state; message boxes that
signal errors are modelled as explicit error values.
-/

/-- A song record, as produced by MusicBingoApp.get_song_info: a Python dict
with keys filepath, title, artist, album, duration.  Python compares such
dicts by value, which the derived decidable equality mirrors.  The float
duration is modelled as a rational number. -/
structure Song where
  filepath : String
  title : String
  artist : String
  album : String
  duration : Rat
deriving DecidableEq

/-- The mutable attributes set in MusicBingoApp.__init__ (lines 29-38):
music_library, current_game_songs, played_songs, current_song, is_playing,
game_active, library_folder and SONGS_PER_GAME. -/
structure AppState where
  music_library : List Song
  current_game_songs : List Song
  played_songs : List Song
  current_song : Option Song
  is_playing : Bool
  game_active : Bool
  library_folder : String
  songs_per_game : Nat
deriving DecidableEq

/-- The state right after MusicBingoApp.__init__ initialises its attributes
(before load_settings runs): empty library, no game, SONGS_PER_GAME = 75. -/
def initState : AppState :=
  { music_library := []
    current_game_songs := []
    played_songs := []
    current_song := none
    is_playing := false
    game_active := false
    library_folder := ""
    songs_per_game := 75 }

/-- Python indexing collection, used to model random.sample and
random.shuffle explicitly: the random module is replaced by the list of
chosen positions, and the sample is the list of elements at those
positions. -/
def sampleByIdx {α : Type} (pop : List α) (idxs : List Nat) : List α :=
  idxs.filterMap (fun i => pop[i]?)

/-- The errors the controller reports through message boxes in
play_next_song (music_bingo.py lines 263-273). -/
inductive PlayError where
  | NoActiveGameError
  | GameCompleteError
deriving DecidableEq

/-- music_bingo.py line 268: the list comprehension
[s for s in self.current_game_songs if s not in self.played_songs].
Membership is Python value equality on the song dicts. -/
def unplayed (st : AppState) : List Song :=
  st.current_game_songs.filter (fun s => decide (¬ s ∈ st.played_songs))

/-- MusicBingoApp.play_next_song (lines 261-307).  If no game is active it
reports NoActiveGameError and changes nothing; if every song of the order is
already in played_songs it reports GameCompleteError and sets
game_active := false; otherwise it takes the first unplayed song, makes it
the current song, appends it to played_songs and starts playback
(is_playing := true). -/
def play_next_song (st : AppState) : AppState × Option PlayError :=
  if !st.game_active then (st, some PlayError.NoActiveGameError)
  else
    match unplayed st with
    | [] => ({ st with game_active := false }, some PlayError.GameCompleteError)
    | s :: _ =>
        ({ st with current_song := some s
                   played_songs := st.played_songs ++ [s]
                   is_playing := true }, none)

/-- MusicBingoApp.stop_song (lines 350-363): when a song is playing it stops
the mixer and clears is_playing; the current_song attribute is not touched.
When nothing is playing it does nothing. -/
def stop_song (st : AppState) : AppState :=
  if st.is_playing then { st with is_playing := false } else st

/-- MusicBingoApp.pause_song (lines 340-348): pauses or unpauses the pygame
mixer and relabels the button; none of the modelled attributes change. -/
def pause_song (st : AppState) : AppState := st

/-- MusicBingoApp.new_game (lines 224-259).  With fewer library songs than
SONGS_PER_GAME it shows a warning and returns without touching any state.
Otherwise it resets played_songs, current_song and game_active, then draws
random.sample(music_library, SONGS_PER_GAME) and shuffles it in place; the
two random draws are passed in as the index lists idxs (sample positions in
the library) and perm (the shuffle permutation of the sample). -/
def new_game (st : AppState) (idxs perm : List Nat) : AppState :=
  if st.music_library.length < st.songs_per_game then st
  else
    let sampled := sampleByIdx st.music_library idxs
    let shuffled := sampleByIdx sampled perm
    { st with played_songs := []
              current_song := none
              game_active := true
              current_game_songs := shuffled }

/-- MusicBingoApp.scan_music_folder (lines 168-191): rebuilds music_library
from the MP3 files found under the library folder; the file system walk is
abstracted as the resulting list of song records. -/
def scan_music_folder (st : AppState) (scanned : List Song) : AppState :=
  { st with music_library := scanned }

/-- The parsed contents of .music_bingo_settings.json: a JSON object whose
two keys are both optional (settings.get supplies the defaults). -/
structure SettingsFile where
  library_folder : Option String
  songs_per_game : Option Nat
deriving DecidableEq

/-- MusicBingoApp.load_settings (lines 392-402).  The file argument models
the three cases: none = the settings file does not exist (the exists() check
fails), some none = the file exists but json.load raises (the except clause
passes), some (some s) = the file parses, and the two attributes are set
from settings.get with defaults "" and 50.  In the first two cases no
attribute is assigned, so the state is returned unchanged. -/
def load_settings (st : AppState) (file : Option (Option SettingsFile)) : AppState :=
  match file with
  | some (some s) =>
      { st with library_folder := s.library_folder.getD ""
                songs_per_game := s.songs_per_game.getD 50 }
  | _ => st

/-- One user-level operation on the controller, used to state invariants
over every reachable state.  Operations that need external input (the
random draws, the settings file, the folder scan) carry it. -/
inductive Op where
  | newGame (idxs perm : List Nat)
  | playNext
  | stopSong
  | pauseSong
  | loadSettings (file : Option (Option SettingsFile))
  | scanFolder (scanned : List Song)

/-- Apply one operation to the controller state. -/
def applyOp (st : AppState) : Op → AppState
  | Op.newGame idxs perm => new_game st idxs perm
  | Op.playNext => (play_next_song st).1
  | Op.stopSong => stop_song st
  | Op.pauseSong => pause_song st
  | Op.loadSettings file => load_settings st file
  | Op.scanFolder scanned => scan_music_folder st scanned

/-- Run a list of operations from a state. -/
def runOps (st : AppState) : List Op → AppState
  | [] => st
  | op :: ops => runOps (applyOp st op) ops

/-- History (ghost) flag tracking whether a successful play has happened
since the last successful game reset: playNext sets it when it will take the
success branch, a successful newGame clears it, every other operation leaves
it alone. -/
def playFlag (st : AppState) (b : Bool) : Op → Bool
  | Op.playNext =>
      if st.game_active = true ∧ unplayed st ≠ [] then true else b
  | Op.newGame _ _ =>
      if st.music_library.length < st.songs_per_game then b else false
  | _ => b

/-- The history flag after running a list of operations. -/
def playedSince (st : AppState) (b : Bool) : List Op → Bool
  | [] => b
  | op :: ops => playedSince (applyOp st op) (playFlag st b op) ops

/-- Iterating play_next_song, keeping only the state (the UI shows the error
of each call and continues). -/
def iterate_play (st : AppState) : Nat → AppState
  | 0 => st
  | n + 1 => (play_next_song (iterate_play st n)).1

/-- The played_songs list after n presses of Play Next Song starting from an
active game with nothing played: each press appends the first song of the
order that is not yet in the list, and a press with nothing left appends
nothing. -/
def playedAfter (order : List Song) : Nat → List Song
  | 0 => []
  | n + 1 =>
      let p := playedAfter order n
      match order.filter (fun s => decide (¬ s ∈ p)) with
      | [] => p
      | s :: _ => p ++ [s]

/-- The color cycle of DisplayWindow.update_songs (music_bingo.py line 463). -/
def colors : List String := ["red", "white", "blue"]

/-- The text put on display row i (0 = most recent) when the full played
list has the given total length: song_number = len(songs) - i followed by
title and artist (music_bingo.py lines 481-484). -/
def rowText (total i : Nat) (s : Song) : String :=
  toString (total - i) ++ ". " ++ s.title ++ " - " ++ s.artist

/-- DisplayWindow.update_songs (lines 458-500).  Each of the ten labels is
modelled as Option (text, color): none = cleared.  The method clears every
label, returns at once on an empty list, otherwise takes the last ten
played songs, reverses them to most-recent-first and writes row i with
color colors[i mod 3]. -/
def update_songs (songs : List Song) : List (Option (String × String)) :=
  if songs = [] then List.replicate 10 none
  else
    let last10 := if songs.length > 10 then songs.drop (songs.length - 10) else songs
    let shown := last10.reverse.enum.map
      (fun p => some (rowText songs.length p.1 p.2, colors.getD (p.1 % 3) ""))
    shown ++ List.replicate (10 - shown.length) none

/-- One cell of a bingo card as built by CardGenerator.create_single_card
(lines 598-612): either the FREE center marker or the Python dict holding
the title and artist of a song, modelled as an association list to keep the
exact set of keys the code stores. -/
inductive Cell where
  | FREE
  | song (d : List (String × String))
deriving DecidableEq

/-- The dict appended for a non-free cell (lines 607-610): only the keys
title and artist are stored. -/
def cellOf (s : Song) : Cell :=
  Cell.song [("title", s.title), ("artist", s.artist)]

/-- A bingo card: the list of five rows of five cells. -/
abbrev Card := List (List Cell)

/-- The 25 cells of a card in row-major order (the nested row/col loop of
lines 598-612 with its running song_index): with the free space enabled the
cell at row-major position 12 = (row 2, col 2) is FREE and the selected
songs fill the other positions in order; without it the 25 selected songs
fill all positions. -/
def flatCells (free_space : Bool) (sel : List Song) : List Cell :=
  if free_space then
    (sel.take 12).map cellOf ++ [Cell.FREE] ++ (sel.drop 12).map cellOf
  else sel.map cellOf

/-- Split the row-major cell list into the five card rows. -/
def toGrid (cells : List Cell) : Card :=
  [cells.take 5, (cells.drop 5).take 5, (cells.drop 10).take 5,
   (cells.drop 15).take 5, (cells.drop 20).take 5]

/-- CardGenerator.create_single_card (lines 580-614): num_songs = 24 with
the free space, 25 without; with a smaller pool it warns and returns None;
otherwise it draws random.sample(self.songs, num_songs) - passed in as the
index list idxs - and fills the 5x5 grid row-major with FREE in the
center when enabled. -/
def create_single_card (songs : List Song) (free_space : Bool) (idxs : List Nat) :
    Option Card :=
  let num_songs := if free_space then 24 else 25
  if songs.length < num_songs then none
  else some (toGrid (flatCells free_space (sampleByIdx songs idxs)))

/-- The cell of a card at (row, col). -/
def cellAt (card : Card) (r c : Nat) : Option Cell :=
  (card[r]?).bind (fun row => row[c]?)

/-- The non-FREE cells of a card in row-major order. -/
def nonFreeCells (card : Card) : List Cell :=
  card.flatten.filter (fun c => decide (c ≠ Cell.FREE))

/-- CardGenerator.generate_cards (lines 572-578): one create_single_card
call per requested card, collecting the Option results (the Python list may
contain None entries). -/
def generate_cards (songs : List Song) (free_space : Bool)
    (idxsList : List (List Nat)) : List (Option Card) :=
  idxsList.map (create_single_card songs free_space)

/-- Python dict lookup d[k] on the association-list model: none models the
KeyError case. -/
def dictGet (d : List (String × String)) (k : String) : Option String :=
  (d.find? (fun p => p.1 = k)).map (fun p => p.2)

/-- The Python exceptions that can escape generate_html. -/
inductive PyErr where
  | KeyError (k : String)
deriving DecidableEq

/-- The rendered content of one table cell of a card (lines 737-747):
either the FREE SPACE cell or a song cell showing the song number read from
the dict key number, plus the truncated title and artist. -/
inductive Td where
  | freeSpace
  | songCell (number title artist : String)
deriving DecidableEq

/-- String truncation of lines 741-742: keep the first n characters and add
an ellipsis when longer than n. -/
def trunc (n : Nat) (s : String) : String :=
  if s.length > n then (s.take n).append "..." else s

/-- Render one cell (lines 736-747).  A FREE cell renders the free-space
td.  A song cell reads cell[title], cell[artist] and cell[number] from the
dict; a missing key raises KeyError, which propagates out of the loop. -/
def renderCell : Cell → Except PyErr Td
  | Cell.FREE => Except.ok Td.freeSpace
  | Cell.song d =>
      match dictGet d "title" with
      | none => Except.error (PyErr.KeyError "title")
      | some t =>
        match dictGet d "artist" with
        | none => Except.error (PyErr.KeyError "artist")
        | some a =>
          match dictGet d "number" with
          | none => Except.error (PyErr.KeyError "number")
          | some n => Except.ok (Td.songCell n (trunc 30 t) (trunc 25 a))

/-- Render the cells of one card row (the inner loop of lines 736-747);
an exception in any cell aborts the whole generation. -/
def renderRow : List Cell → Except PyErr (List Td)
  | [] => Except.ok []
  | c :: cs => do
      let t ← renderCell c
      let ts ← renderRow cs
      Except.ok (t :: ts)

/-- Render the rows of one card (the loop of lines 734-748). -/
def renderCard : Card → Except PyErr (List (List Td))
  | [] => Except.ok []
  | row :: rows => do
      let r ← renderRow row
      let rs ← renderCard rows
      Except.ok (r :: rs)

/-- Render every card in turn (the loop of lines 716-753). -/
def renderCards : List Card → Except PyErr (List (List (List Td)))
  | [] => Except.ok []
  | card :: cards => do
      let t ← renderCard card
      let ts ← renderCards cards
      Except.ok (t :: ts)

/-- The structure of the generated document: the card tables followed by
the numbered master song list of lines 764-765 (number, title, artist);
the surrounding boilerplate markup carries no data and is omitted. -/
structure Html where
  cardTables : List (List (List Td))
  masterList : List (Nat × String × String)
deriving DecidableEq

/-- CardGenerator.generate_html (lines 616-788) up to the file dialog: on
an empty card list or any failed card it silently returns (ok none, no
document); otherwise it renders every card table and the master list.  Any
KeyError raised while rendering aborts generation with that exception. -/
def generate_html (cards : List (Option Card)) (songs : List Song) :
    Except PyErr (Option Html) :=
  if cards = [] ∨ none ∈ cards then Except.ok none
  else do
    let tables ← renderCards cards.reduceOption
    Except.ok (some { cardTables := tables
                      masterList := (songs.enum.map
                        (fun p => (p.1 + 1, p.2.title, p.2.artist))) })

/-- One file seen by library_manager.py while walking a folder: its base
name without extension (os.path.splitext strips it before tag parsing),
whether its name ends in .mp3, the optional TIT2 and TPE1 tags, and whether
ID3() can read the file at all (false = the except branch). -/
structure LMFile where
  filename : String
  isMp3 : Bool
  title : Option String
  artist : Option String
  tagsReadable : Bool
deriving DecidableEq

/-- A folder path as the command-line utility sees it: whether
os.path.exists holds, and the files os.walk yields when it does. -/
structure Folder where
  pathExists : Bool
  files : List LMFile
deriving DecidableEq

/-- os.walk: a missing folder yields no files at all. -/
def walkFiles (fld : Folder) : List LMFile :=
  if fld.pathExists then fld.files else []

/-- An entry of the files_with_tags result list of scan_library
(library_manager.py lines 39-43). -/
structure TaggedSong where
  path : String
  title : String
  artist : String
deriving DecidableEq

/-- The lines library_manager.py prints, abstracted to one constructor per
print site (the exact wording and numeric formatting carry no logic). -/
inductive OutMsg where
  | errorFolderMissing (path : String)
  | scanningFolder (path : String)
  | libraryReport (total withTags withoutTags : Nat)
  | warnNeedMoreSongs (current : Nat)
  | enoughSongs (games : Nat)
  | missingTagsList (shown : List String) (more : Nat)
  | attemptingAutoFix
  | fixedTags (name : String)
  | fixedCount (n : Nat)
  | rescanningAfterFixes
  | recommendations (count : Nat)
  | songList (entries : List (String × String))
deriving DecidableEq

/-- Whether a file counts as properly tagged (lines 33-45): the tags are
readable and both TIT2 and TPE1 are present. -/
def hasProperTags (f : LMFile) : Bool :=
  f.tagsReadable && f.title.isSome && f.artist.isSome

/-- scan_library (library_manager.py lines 15-69).  A missing folder prints
the error line and returns None (the implicit Python return).  Otherwise it
partitions the MP3 files into properly tagged and untagged, prints the
report with the 50-song warning or the game count, lists up to ten untagged
files, and returns the tagged entries. -/
def lm_scan_library (path : String) (fld : Folder) :
    List OutMsg × Option (List TaggedSong) :=
  if !fld.pathExists then ([OutMsg.errorFolderMissing path], none)
  else
    let mp3s := fld.files.filter (fun f => f.isMp3)
    let tagged := mp3s.filter (fun f => hasProperTags f)
    let untagged := mp3s.filter (fun f => !hasProperTags f)
    let withTags := tagged.map
      (fun f => TaggedSong.mk f.filename (f.title.getD "") (f.artist.getD ""))
    ([OutMsg.scanningFolder path,
      OutMsg.libraryReport mp3s.length withTags.length untagged.length]
      ++ (if mp3s.length < 50 then [OutMsg.warnNeedMoreSongs mp3s.length]
          else [OutMsg.enoughSongs (mp3s.length / 50)])
      ++ (if untagged = [] then []
          else [OutMsg.missingTagsList ((untagged.take 10).map (fun f => f.filename))
                  (untagged.length - 10)]),
     some withTags)

/-- The filename heuristic of auto_fix_tags (lines 113-124): a name holding
the separator is split at its first occurrence as Artist - Title; otherwise
the whole name is the title and the artist is Unknown Artist.  Returns
(title, artist). -/
def parseFixedTags (name : String) : String × String :=
  match name.splitOn " - " with
  | p0 :: p1 :: rest => (String.intercalate " - " (p1 :: rest), p0)
  | _ => (name, "Unknown Artist")

/-- fix_tags (lines 71-92) on the tag model: starts from the existing tags
when readable and from a fresh empty tag set otherwise, then assigns TIT2
and TPE1 only for truthy (non-empty) arguments.  Saving is modelled as
succeeding. -/
def fix_tags (f : LMFile) (t a : String) : LMFile :=
  let baseTitle := if f.tagsReadable then f.title else none
  let baseArtist := if f.tagsReadable then f.artist else none
  { f with tagsReadable := true
           title := if t = "" then baseTitle else some t
           artist := if a = "" then baseArtist else some a }

/-- One iteration of the auto_fix_tags loop on one file: non-MP3 files and
files that already carry proper tags are skipped; the rest are fixed from
the filename heuristic.  The flag reports whether a fix was counted. -/
def auto_fix_file (f : LMFile) : LMFile × Bool :=
  if !f.isMp3 then (f, false)
  else if hasProperTags f then (f, false)
  else
    let ta := parseFixedTags f.filename
    (fix_tags f ta.1 ta.2, true)

/-- auto_fix_tags (lines 94-126): walks the folder (a missing folder yields
nothing), fixes every improperly tagged MP3, prints one line per fix and the
final count, and leaves the folder updated. -/
def auto_fix_tags (fld : Folder) : Folder × List OutMsg :=
  let results := (walkFiles fld).map auto_fix_file
  let fixedN := (results.filter (fun r => r.2)).length
  ({ fld with files := if fld.pathExists then results.map (fun r => r.1) else fld.files },
   [OutMsg.attemptingAutoFix]
     ++ results.filterMap (fun r => if r.2 then some (OutMsg.fixedTags r.1.filename) else none)
     ++ [OutMsg.fixedCount fixedN])

/-- library_manager.py main (lines 152-180), given a parsed folder argument
and the two flags.  It scans, optionally auto-fixes and rescans, prints the
recommendations when the scan returned a truthy (non-None, non-empty) song
list, and prints the tag listing under --list.  The source contains no
sys.exit call and nothing here raises, so the process always finishes with
exit code 0; the returned pair is (printed messages, exit code). -/
def lm_main (path : String) (fld : Folder) (fixFlag listFlag : Bool) :
    List OutMsg × Nat :=
  let scan1 := lm_scan_library path fld
  let afterFix :=
    if fixFlag then
      let fixres := auto_fix_tags fld
      let scan2 := lm_scan_library path fixres.1
      (scan1.1 ++ fixres.2 ++ [OutMsg.rescanningAfterFixes] ++ scan2.1, scan2.2)
    else (scan1.1, scan1.2)
  let songs := afterFix.2
  let recMsgs :=
    match songs with
    | some l => if l = [] then [] else [OutMsg.recommendations l.length]
    | none => []
  let listMsgs :=
    match songs with
    | some l =>
        if listFlag && !l.isEmpty then
          [OutMsg.songList (l.map (fun s => (s.title, s.artist)))]
        else []
    | none => []
  (afterFix.1 ++ recMsgs ++ listMsgs, 0)

/-! ## Helper lemmas about index-based sampling -/

theorem length_sampleByIdx {α : Type} (pop : List α) :
    ∀ idxs : List Nat, (∀ i ∈ idxs, i < pop.length) →
      (sampleByIdx pop idxs).length = idxs.length
  | [], _ => rfl
  | i :: is, h => by
      have hi : i < pop.length := h i (List.mem_cons_self i is)
      have hrest : ∀ j ∈ is, j < pop.length := fun j hj => h j (List.mem_cons_of_mem i hj)
      simp only [sampleByIdx]
      rw [List.filterMap_cons, List.getElem?_eq_getElem hi]
      simpa [sampleByIdx] using congrArg Nat.succ (length_sampleByIdx pop is hrest)

theorem mem_sampleByIdx {α : Type} {pop : List α} {idxs : List Nat} {s : α}
    (h : s ∈ sampleByIdx pop idxs) : s ∈ pop := by
  simp only [sampleByIdx] at h
  rw [List.mem_filterMap] at h
  obtain ⟨i, _, hget⟩ := h
  obtain ⟨hlt, rfl⟩ := List.getElem?_eq_some.mp hget
  exact List.getElem_mem hlt

theorem nodup_sampleByIdx {α : Type} {pop : List α} (hpop : pop.Nodup) :
    ∀ idxs : List Nat, idxs.Nodup → (∀ i ∈ idxs, i < pop.length) →
      (sampleByIdx pop idxs).Nodup
  | [], _, _ => List.nodup_nil
  | i :: is, hnd, h => by
      have hi : i < pop.length := h i (List.mem_cons_self i is)
      have hrest : ∀ j ∈ is, j < pop.length := fun j hj => h j (List.mem_cons_of_mem i hj)
      simp only [sampleByIdx]
      rw [List.filterMap_cons, List.getElem?_eq_getElem hi]
      rw [List.nodup_cons]
      refine ⟨?_, nodup_sampleByIdx hpop is (List.nodup_cons.mp hnd).2 hrest⟩
      intro hmem
      rw [List.mem_filterMap] at hmem
      obtain ⟨j, hj, hget⟩ := hmem
      obtain ⟨hjlt, hje⟩ := List.getElem?_eq_some.mp hget
      have : i = j := by
        have := (List.Nodup.getElem_inj_iff hpop).mp hje.symm
        omega
      exact (List.nodup_cons.mp hnd).1 (this ▸ hj)

theorem sampleByIdx_perm {α : Type} (l : List α) (p : List Nat)
    (hnd : p.Nodup) (hlt : ∀ i ∈ p, i < l.length) (hlen : l.length ≤ p.length) :
    (sampleByIdx l p).Perm l := by
  have hsub : p ⊆ List.range l.length := fun i hi => List.mem_range.mpr (hlt i hi)
  have hsp : List.Subperm p (List.range l.length) := List.subperm_of_subset hnd hsub
  have hperm : p.Perm (List.range l.length) :=
    hsp.perm_of_length_le (by simpa using hlen)
  have h1 : (sampleByIdx l p).Perm (sampleByIdx l (List.range l.length)) :=
    hperm.filterMap _
  have h2 : sampleByIdx l (List.range l.length) = l := by
    clear hnd hlt hlen hsub hsp hperm h1 p
    induction l with
    | nil => rfl
    | cons a t ih =>
        simp only [sampleByIdx] at ih ⊢
        rw [show (a :: t).length = t.length + 1 from rfl, List.range_succ_eq_map,
          List.filterMap_cons]
        simp only [List.getElem?_cons_zero, List.filterMap_map]
        have : (fun i => (a :: t)[i]?) ∘ Nat.succ = fun i => t[i]? := by
          funext i; simp
        rw [this, ih]
  rwa [h2] at h1

theorem nodup_length_le_dedup {α : Type} [DecidableEq α] (l p : List α)
    (hp : p.Nodup) (hsub : ∀ a ∈ p, a ∈ l) : p.length ≤ l.dedup.length := by
  have h1 : p.toFinset.card = p.length := List.toFinset_card_of_nodup hp
  have h2 : p.toFinset ⊆ l.toFinset := by
    intro a ha
    rw [List.mem_toFinset] at *
    exact hsub a ha
  have h3 := Finset.card_le_card h2
  rw [h1, List.card_toFinset] at h3
  exact h3

theorem dedup_length_lt_of_not_nodup {α : Type} [DecidableEq α] (l : List α)
    (h : ¬ l.Nodup) : l.dedup.length < l.length := by
  rcases Nat.lt_or_ge l.dedup.length l.length with h1 | h1
  · exact h1
  · exfalso
    have hs := List.dedup_sublist l
    have := hs.eq_of_length (le_antisymm hs.length_le h1)
    exact h (this ▸ l.nodup_dedup)

/-! ## C8: advancing with no active game -/

/-- C8: when the session is not active, play_next_song reports
NoActiveGameError and returns the state entirely unchanged (played order,
current song and the playing flag included); nothing is retried. -/
theorem c8_no_active_game_noop (st : AppState) (h : st.game_active = false) :
    play_next_song st = (st, some PlayError.NoActiveGameError) := by
  simp [play_next_song, h]

/-- Witness for C8 at the freshly initialised state, which is inactive. -/
theorem c8_no_active_game_noop_witness :
    play_next_song initState = (initState, some PlayError.NoActiveGameError) :=
  c8_no_active_game_noop initState rfl

/-! ## C4: defaults on a missing or corrupt settings file -/

/-- C4 counterexample: with the settings file missing, songs_per_game is
the 75 set by the constructor, not the 50 the claim states. -/
theorem c4_counterexample :
    ¬ ((load_settings initState none).songs_per_game = 50) := by decide

/-- C4 (amended): a missing or unparseable settings file leaves the state
exactly as the constructor made it - library_folder = "" and
songs_per_game = 75.  The 50 default applies only when the file parses but
lacks the songs_per_game key. -/
theorem c4_missing_or_corrupt_defaults (file : Option (Option SettingsFile))
    (h : file = none ∨ file = some none) :
    load_settings initState file = initState ∧
    (load_settings initState file).library_folder = "" ∧
    (load_settings initState file).songs_per_game = 75 := by
  rcases h with rfl | rfl <;> exact ⟨rfl, rfl, rfl⟩

/-- Witness for C4 at the missing-file input. -/
theorem c4_missing_or_corrupt_defaults_witness :
    load_settings initState none = initState ∧
    (load_settings initState none).library_folder = "" ∧
    (load_settings initState none).songs_per_game = 75 :=
  c4_missing_or_corrupt_defaults none (Or.inl rfl)

/-! ## C9: library manager on a missing folder -/

/-- A concrete missing folder. -/
def missingFolder : Folder := { pathExists := false, files := [] }

/-- C9 counterexample: on a nonexistent folder path the program prints the
error report but main returns normally, so the process exit code is 0, not
the 1 the claim states. -/
theorem c9_counterexample :
    ¬ ((lm_main "/no/such/folder" missingFolder false false).2 = 1) := by decide

/-- C9 (amended): for every folder path that does not exist, the library
manager prints the folder-missing error report, and terminates normally
with exit code 0 (main contains no sys.exit call), whatever the flags. -/
theorem c9_missing_folder_report (path : String) (fld : Folder)
    (fixFlag listFlag : Bool) (h : fld.pathExists = false) :
    OutMsg.errorFolderMissing path ∈ (lm_main path fld fixFlag listFlag).1 ∧
    (lm_main path fld fixFlag listFlag).2 = 0 := by
  cases fixFlag <;>
    simp [lm_main, lm_scan_library, auto_fix_tags, walkFiles, h]

/-- Witness for C9 at a concrete missing folder with both flags set. -/
theorem c9_missing_folder_report_witness :
    OutMsg.errorFolderMissing "/no/such/folder" ∈
      (lm_main "/no/such/folder" missingFolder true true).1 ∧
    (lm_main "/no/such/folder" missingFolder true true).2 = 0 :=
  c9_missing_folder_report "/no/such/folder" missingFolder true true rfl

/-! ## C2: starting a new game -/

/-- C2: new_game aborts without touching any state when the library is
smaller than songs-per-game; with a valid sample draw (distinct positions
inside the library, songs-per-game of them) and a valid shuffle draw it
produces a pool of exactly songs-per-game songs drawn from the library
without replacement (record-distinct whenever the library has no duplicate
records, which holds for scanned folders since file paths are unique), sets
the play order to a permutation of that pool, resets played to empty and
activates the session. -/
theorem c2_new_game_spec (st : AppState) (idxs perm : List Nat) :
    (st.music_library.length < st.songs_per_game → new_game st idxs perm = st) ∧
    (idxs.Nodup → (∀ i ∈ idxs, i < st.music_library.length) →
     idxs.length = st.songs_per_game →
     perm.Nodup → (∀ i ∈ perm, i < st.songs_per_game) →
     st.songs_per_game ≤ perm.length →
      (sampleByIdx st.music_library idxs).length = st.songs_per_game ∧
      (∀ s ∈ sampleByIdx st.music_library idxs, s ∈ st.music_library) ∧
      (st.music_library.Nodup → (sampleByIdx st.music_library idxs).Nodup) ∧
      (new_game st idxs perm).current_game_songs.Perm
        (sampleByIdx st.music_library idxs) ∧
      (new_game st idxs perm).played_songs = [] ∧
      (new_game st idxs perm).current_song = none ∧
      (new_game st idxs perm).game_active = true) := by
  constructor
  · intro h
    simp [new_game, h]
  · intro hnd hlt hlen hpnd hplt hplen
    have hklen : (sampleByIdx st.music_library idxs).length = st.songs_per_game := by
      rw [length_sampleByIdx st.music_library idxs hlt, hlen]
    have hge : ¬ st.music_library.length < st.songs_per_game := by
      have hsub : idxs ⊆ List.range st.music_library.length :=
        fun i hi => List.mem_range.mpr (hlt i hi)
      have := (List.subperm_of_subset hnd hsub).length_le
      simp only [List.length_range] at this
      omega
    have horder : (new_game st idxs perm).current_game_songs =
        sampleByIdx (sampleByIdx st.music_library idxs) perm := by
      simp [new_game, hge]
    refine ⟨hklen, fun s hs => mem_sampleByIdx hs,
      fun hnodup => nodup_sampleByIdx hnodup idxs hnd hlt, ?_, ?_, ?_, ?_⟩
    · rw [horder]
      exact sampleByIdx_perm _ perm hpnd (fun i hi => by rw [hklen]; exact hplt i hi)
        (by rw [hklen]; exact hplen)
    · simp [new_game, hge]
    · simp [new_game, hge]
    · simp [new_game, hge]

/-- A small distinct song library for the witnesses. -/
def mkSong (n : Nat) : Song :=
  { filepath := toString n, title := "t" ++ toString n,
    artist := "a" ++ toString n, album := "b", duration := 3 }

/-- A concrete two-song library state with songs_per_game = 2. -/
def exLibState : AppState :=
  { initState with music_library := [mkSong 0, mkSong 1], songs_per_game := 2 }

/-- Witness for C2: a concrete two-song library, sample positions [1, 0]
and shuffle [1, 0]. -/
theorem c2_new_game_spec_witness :
    (sampleByIdx exLibState.music_library [1, 0]).length = exLibState.songs_per_game ∧
    (∀ s ∈ sampleByIdx exLibState.music_library [1, 0], s ∈ exLibState.music_library) ∧
    (exLibState.music_library.Nodup →
      (sampleByIdx exLibState.music_library [1, 0]).Nodup) ∧
    (new_game exLibState [1, 0] [1, 0]).current_game_songs.Perm
      (sampleByIdx exLibState.music_library [1, 0]) ∧
    (new_game exLibState [1, 0] [1, 0]).played_songs = [] ∧
    (new_game exLibState [1, 0] [1, 0]).current_song = none ∧
    (new_game exLibState [1, 0] [1, 0]).game_active = true :=
  (c2_new_game_spec exLibState [1, 0] [1, 0]).2 (by decide) (by decide) (by decide)
    (by decide) (by decide) (by decide)

/-! ## C5: the display window update -/

/-- C5: update_songs always produces the ten label rows; row i with
i < min 10 len shows the song at position len - 1 - i of the played list
(so the rows are the last min(10, len) entries most-recent-first, and a
list longer than ten shows only its last ten) with color colors[i mod 3];
every later row is cleared, so the empty list clears all rows. -/
theorem c5_update_songs_spec (songs : List Song) :
    (update_songs songs).length = 10 ∧
    (∀ i s, i < min 10 songs.length → songs[songs.length - 1 - i]? = some s →
      (update_songs songs)[i]? =
        some (some (rowText songs.length i s, colors.getD (i % 3) ""))) ∧
    (∀ i, min 10 songs.length ≤ i → i < 10 →
      (update_songs songs)[i]? = some none) := by
  by_cases hne : songs = []
  · subst hne
    refine ⟨by simp [update_songs], ?_, ?_⟩
    · intro i s hi
      simp at hi
    · intro i _ hlt
      have hrepl : update_songs [] = List.replicate 10 none := rfl
      rw [hrepl, List.getElem?_replicate, if_pos hlt]
  · have hupd : update_songs songs =
        (if songs.length > 10 then songs.drop (songs.length - 10)
         else songs).reverse.enum.map
          (fun p => some (rowText songs.length p.1 p.2, colors.getD (p.1 % 3) ""))
        ++ List.replicate (10 -
          ((if songs.length > 10 then songs.drop (songs.length - 10)
            else songs).reverse.enum.map
            (fun p => some (rowText songs.length p.1 p.2,
              colors.getD (p.1 % 3) ""))).length) none := by
      simp only [update_songs, if_neg hne]
    set last10 := if songs.length > 10 then songs.drop (songs.length - 10)
      else songs with hlast10
    have hl10 : last10.length = min 10 songs.length := by
      rw [hlast10]
      by_cases h10 : songs.length > 10 <;> simp [h10] <;> omega
    set shown := last10.reverse.enum.map
      (fun p => some (rowText songs.length p.1 p.2, colors.getD (p.1 % 3) ""))
      with hshown
    have hsl : shown.length = min 10 songs.length := by
      rw [hshown]
      simp [List.enum_length, hl10]
    have hget10 : ∀ j, j < last10.length → last10[j]? = songs[songs.length - 10 + j]? ∨
        (songs.length ≤ 10 ∧ last10[j]? = songs[j]?) := by
      intro j hj
      rw [hlast10]
      by_cases h10 : songs.length > 10
      · left
        simp only [if_pos h10, List.getElem?_drop]
      · right
        exact ⟨by omega, by simp [if_neg h10]⟩
    refine ⟨?_, ?_, ?_⟩
    · rw [hupd, List.length_append, List.length_replicate]
      omega
    · intro i s hi hs
      rw [hupd]
      have hish : i < shown.length := by omega
      rw [List.getElem?_append_left hish, hshown, List.getElem?_map,
        List.getElem?_enum]
      have hirev : i < last10.reverse.length := by
        rw [List.length_reverse]; omega
      rw [List.getElem?_reverse (by rwa [List.length_reverse] at hirev)]
      have hj : last10.length - 1 - i < last10.length := by omega
      rcases hget10 (last10.length - 1 - i) hj with hcase | ⟨hle, hcase⟩
      · rw [hcase]
        have : songs.length - 10 + (last10.length - 1 - i) =
            songs.length - 1 - i := by
          rw [hl10] at hj ⊢
          omega
        rw [this, hs]
        rfl
      · rw [hcase]
        have : last10.length - 1 - i = songs.length - 1 - i := by
          rw [hl10]; omega
        rw [this, hs]
        rfl
    · intro i hmin hlt
      rw [hupd]
      have hge : shown.length ≤ i := by omega
      rw [List.getElem?_append_right hge]
      have : i - shown.length < 10 - shown.length := by omega
      simp [List.getElem?_replicate, this]

/-- The five-song played list used in the C5 witness. -/
def songs5 : List Song := (List.range 5).map mkSong

/-- Witness for C5 on a concrete five-song list: ten rows, row 1 shows the
second most recent song with the second color, row 7 is cleared. -/
theorem c5_update_songs_spec_witness :
    (update_songs songs5).length = 10 ∧
    (update_songs songs5)[1]? =
      some (some (rowText songs5.length 1 (mkSong 3), colors.getD (1 % 3) "")) ∧
    (update_songs songs5)[7]? = some none :=
  ⟨(c5_update_songs_spec songs5).1,
   (c5_update_songs_spec songs5).2.1 1 (mkSong 3) (by decide) (by decide),
   (c5_update_songs_spec songs5).2.2 7 (by decide) (by decide)⟩

/-! ## C7: the current-song invariant -/

theorem current_iff_playFlag (op : Op) (st : AppState) (b : Bool)
    (h : st.current_song ≠ none ↔ b = true) :
    (applyOp st op).current_song ≠ none ↔ playFlag st b op = true := by
  cases op with
  | newGame idxs perm =>
      by_cases hc : st.music_library.length < st.songs_per_game
      · simpa [applyOp, new_game, playFlag, hc] using h
      · simp [applyOp, new_game, playFlag, hc]
  | playNext =>
      by_cases ha : st.game_active = true
      · cases hu : unplayed st with
        | nil => simpa [applyOp, play_next_song, ha, hu, playFlag] using h
        | cons s rest => simp [applyOp, play_next_song, ha, hu, playFlag]
      · have ha2 : st.game_active = false := by
          cases hga : st.game_active
          · rfl
          · exact absurd hga ha
        simpa [applyOp, play_next_song, ha2, playFlag] using h
  | stopSong =>
      by_cases hp : st.is_playing <;> simpa [applyOp, stop_song, hp, playFlag] using h
  | pauseSong => simpa [applyOp, pause_song, playFlag] using h
  | loadSettings file =>
      rcases file with _ | (_ | s) <;> simpa [applyOp, load_settings, playFlag] using h
  | scanFolder scanned => simpa [applyOp, scan_music_folder, playFlag] using h

theorem current_iff_playedSince :
    ∀ (ops : List Op) (st : AppState) (b : Bool),
      (st.current_song ≠ none ↔ b = true) →
      ((runOps st ops).current_song ≠ none ↔ playedSince st b ops = true)
  | [], _, _, h => h
  | op :: ops, st, b, h =>
      current_iff_playedSince ops (applyOp st op) (playFlag st b op)
        (current_iff_playFlag op st b h)

/-- A concrete song and run of operations for the C7 counterexample:
configure songs-per-game = 1, scan a one-song library, start a game, play
the song and then stop it. -/
def exSong : Song := mkSong 0

/-- load settings (k = 1), scan one song, new game, play, stop. -/
def exTrace : List Op :=
  [Op.loadSettings (some (some { library_folder := some "", songs_per_game := some 1 })),
   Op.scanFolder [exSong],
   Op.newGame [0] [0],
   Op.playNext,
   Op.stopSong]

/-- C7 counterexample: at the end of exTrace the last play action has been
followed by a stop, yet current_song is still the played song - stop_song
never clears it - refuting the claimed invariant that current is non-null
iff the last play has not been followed by a stop. -/
theorem c7_counterexample :
    (runOps initState exTrace).is_playing = false ∧
    (runOps initState exTrace).current_song = some exSong := by decide

/-- C7 (amended): stop_song only clears the playing flag and always leaves
current_song untouched; over every operation sequence from the initial
state, current is non-null exactly when a successful play has happened
since the last successful game reset (the playedSince history flag) -
not when the last play has not been followed by a stop. -/
theorem c7_current_invariant_amended :
    (∀ ops : List Op,
      (runOps initState ops).current_song ≠ none ↔
        playedSince initState false ops = true) ∧
    (∀ st : AppState,
      (stop_song st).current_song = st.current_song ∧
      (stop_song st).is_playing = false) := by
  constructor
  · intro ops
    exact current_iff_playedSince ops initState false (by simp [initState])
  · intro st
    by_cases hp : st.is_playing
    · simp [stop_song, hp]
    · have : st.is_playing = false := by
        cases h : st.is_playing
        · rfl
        · exact absurd h hp
      simp [stop_song, this]

/-! ## C6: single-card creation -/

theorem toGrid_flatten (cells : List Cell) (h : cells.length = 25) :
    (toGrid cells).flatten = cells := by
  have e1 : (cells.drop 20).take 5 = cells.drop 20 :=
    List.take_of_length_le (by simp [h])
  have e2 : (cells.drop 15).drop 5 = cells.drop 20 := by rw [List.drop_drop]
  have e3 : (cells.drop 10).drop 5 = cells.drop 15 := by rw [List.drop_drop]
  have e4 : (cells.drop 5).drop 5 = cells.drop 10 := by rw [List.drop_drop]
  simp only [toGrid, List.flatten, List.append_nil]
  rw [e1, ← e2, List.take_append_drop, ← e3, List.take_append_drop,
    ← e4, List.take_append_drop, List.take_append_drop]

theorem length_flatCells (free : Bool) (sel : List Song)
    (h : sel.length = if free then 24 else 25) :
    (flatCells free sel).length = 25 := by
  cases free <;> simp [flatCells] at h ⊢ <;> omega

theorem cellAt_toGrid_center (cells : List Cell) :
    cellAt (toGrid cells) 2 2 = (cells.drop 10)[2]? := by
  show ((toGrid cells)[2]?).bind (fun row => row[2]?) = (cells.drop 10)[2]?
  have h2 : (toGrid cells)[2]? = some ((cells.drop 10).take 5) := rfl
  rw [h2, Option.some_bind, List.getElem?_take, if_pos (by omega)]

theorem filter_nonfree_map (l : List Song) :
    (l.map cellOf).filter (fun c => decide (c ≠ Cell.FREE)) = l.map cellOf := by
  apply List.filter_eq_self.2
  intro a ha
  rw [List.mem_map] at ha
  obtain ⟨s, _, rfl⟩ := ha
  simp [cellOf]

/-- C6: create_single_card fails exactly on a pool smaller than 24 (free
space) or 25; with a valid without-replacement draw it builds the 5x5 grid
whose non-FREE cells are the sampled songs in row-major order, places FREE
at (2,2) exactly when the free space is enabled, never repeats a song
inside one card (for a duplicate-free pool), and over a pool of exactly 24
with free space the sample is a permutation of the pool, so every pool song
appears exactly once on the card. -/
theorem c6_create_single_card_spec (pool : List Song) (idxs : List Nat) (free : Bool) :
    (pool.length < (if free then 24 else 25) →
      create_single_card pool free idxs = none) ∧
    (idxs.Nodup → (∀ i ∈ idxs, i < pool.length) →
     idxs.length = (if free then 24 else 25) →
      create_single_card pool free idxs =
        some (toGrid (flatCells free (sampleByIdx pool idxs))) ∧
      (cellAt (toGrid (flatCells free (sampleByIdx pool idxs))) 2 2 =
        some Cell.FREE ↔ free = true) ∧
      nonFreeCells (toGrid (flatCells free (sampleByIdx pool idxs))) =
        (sampleByIdx pool idxs).map cellOf ∧
      (pool.Nodup → (sampleByIdx pool idxs).Nodup) ∧
      (free = true → pool.length = 24 → (sampleByIdx pool idxs).Perm pool) ∧
      (free = true → pool.length = 24 → pool.Nodup →
        ∀ s ∈ pool, (sampleByIdx pool idxs).count s = 1)) := by
  constructor
  · intro h
    simp only [create_single_card]
    rw [if_pos h]
  · intro hnd hlt hlen
    have hge : ¬ pool.length < (if free then 24 else 25) := by
      have hsub : idxs ⊆ List.range pool.length :=
        fun i hi => List.mem_range.mpr (hlt i hi)
      have := (List.subperm_of_subset hnd hsub).length_le
      simp only [List.length_range] at this
      omega
    have hsellen : (sampleByIdx pool idxs).length = if free then 24 else 25 := by
      rw [length_sampleByIdx pool idxs hlt, hlen]
    have hflat : (toGrid (flatCells free (sampleByIdx pool idxs))).flatten =
        flatCells free (sampleByIdx pool idxs) :=
      toGrid_flatten _ (length_flatCells free _ hsellen)
    refine ⟨?_, ?_, ?_, fun hnodup => nodup_sampleByIdx hnodup idxs hnd hlt, ?_, ?_⟩
    · simp only [create_single_card]
      rw [if_neg hge]
    · rw [cellAt_toGrid_center]
      cases free with
      | true =>
          have hsel24 : (sampleByIdx pool idxs).length = 24 := by simpa using hsellen
          have hflat_t : flatCells true (sampleByIdx pool idxs) =
              (((sampleByIdx pool idxs).take 12).map cellOf ++ [Cell.FREE]) ++
              ((sampleByIdx pool idxs).drop 12).map cellOf := by
            show ((sampleByIdx pool idxs).take 12).map cellOf ++ [Cell.FREE] ++
              ((sampleByIdx pool idxs).drop 12).map cellOf = _
            rfl
          have hlenA : (((sampleByIdx pool idxs).take 12).map cellOf).length = 12 := by
            rw [List.length_map, List.length_take, hsel24]
            decide
          have hlenAB : ((((sampleByIdx pool idxs).take 12).map cellOf ++
              [Cell.FREE])).length = 13 := by
            rw [List.length_append, hlenA]
            decide
          rw [hflat_t, List.drop_append_eq_append_drop]
          have hdroplen : ((((sampleByIdx pool idxs).take 12).map cellOf ++
              [Cell.FREE]).drop 10).length = 3 := by
            rw [List.length_drop, hlenAB]
          rw [List.getElem?_append_left (by rw [hdroplen]; omega)]
          have hstep : ((((sampleByIdx pool idxs).take 12).map cellOf ++
              [Cell.FREE]).drop 10)[2]? =
              (((sampleByIdx pool idxs).take 12).map cellOf ++ [Cell.FREE])[12]? := by
            rw [List.getElem?_drop]
          rw [hstep, List.getElem?_append_right (by omega), hlenA]
          simp
      | false =>
          have hsel25 : (sampleByIdx pool idxs).length = 25 := by simpa using hsellen
          have hflat_f : flatCells false (sampleByIdx pool idxs) =
              (sampleByIdx pool idxs).map cellOf := rfl
          rw [hflat_f, List.getElem?_drop, List.getElem?_map]
          have h12 : 10 + 2 < (sampleByIdx pool idxs).length := by omega
          rw [List.getElem?_eq_getElem h12]
          simp [cellOf]
    · rw [nonFreeCells, hflat]
      cases free with
      | true =>
          have hflat_t : flatCells true (sampleByIdx pool idxs) =
              ((sampleByIdx pool idxs).take 12).map cellOf ++ [Cell.FREE] ++
              ((sampleByIdx pool idxs).drop 12).map cellOf := rfl
          rw [hflat_t, List.filter_append, List.filter_append, filter_nonfree_map,
            filter_nonfree_map]
          have hfree : ([Cell.FREE].filter (fun c => decide (c ≠ Cell.FREE))) = [] := by
            simp
          rw [hfree, List.append_nil, ← List.map_append, List.take_append_drop]
      | false =>
          have hflat_f : flatCells false (sampleByIdx pool idxs) =
              (sampleByIdx pool idxs).map cellOf := rfl
          rw [hflat_f]
          exact filter_nonfree_map _
    · intro hfree hp24
      subst hfree
      have hlen24 : idxs.length = 24 := by simpa using hlen
      exact sampleByIdx_perm pool idxs hnd hlt (by omega)
    · intro hfree hp24 hnodup s hs
      subst hfree
      have hlen24 : idxs.length = 24 := by simpa using hlen
      have hperm : (sampleByIdx pool idxs).Perm pool :=
        sampleByIdx_perm pool idxs hnd hlt (by omega)
      rw [hperm.count_eq s]
      exact List.count_eq_one_of_mem hnodup hs

/-- A 24-song pool and a 23-song pool for the C6 witness. -/
def pool24 : List Song := (List.range 24).map mkSong

/-- See pool24. -/
def pool23 : List Song := (List.range 23).map mkSong

/-- Witness for C6: a 23-song pool with free space fails; over the 24-song
pool the identity draw yields the card with FREE at the center, the pool
songs row-major in the other cells, and each pool song exactly once. -/
theorem c6_create_single_card_spec_witness :
    (create_single_card pool23 true [] = none) ∧
    (create_single_card pool24 true (List.range 24) =
      some (toGrid (flatCells true (sampleByIdx pool24 (List.range 24)))) ∧
    (cellAt (toGrid (flatCells true (sampleByIdx pool24 (List.range 24)))) 2 2 =
      some Cell.FREE ↔ true = true) ∧
    nonFreeCells (toGrid (flatCells true (sampleByIdx pool24 (List.range 24)))) =
      (sampleByIdx pool24 (List.range 24)).map cellOf ∧
    (pool24.Nodup → (sampleByIdx pool24 (List.range 24)).Nodup) ∧
    (true = true → pool24.length = 24 →
      (sampleByIdx pool24 (List.range 24)).Perm pool24) ∧
    (true = true → pool24.length = 24 → pool24.Nodup →
      ∀ s ∈ pool24, (sampleByIdx pool24 (List.range 24)).count s = 1)) :=
  ⟨(c6_create_single_card_spec pool23 [] true).1 (by decide),
   (c6_create_single_card_spec pool24 (List.range 24) true).2
     (by decide) (by decide) (by decide)⟩

/-! ## C3: HTML generation -/

theorem renderCell_cellOf (s : Song) :
    renderCell (cellOf s) = Except.error (PyErr.KeyError "number") := by
  simp [renderCell, cellOf, dictGet]

theorem renderRow_head_error (c : Cell) (cs : List Cell) (e : PyErr)
    (h : renderCell c = Except.error e) : renderRow (c :: cs) = Except.error e := by
  show (do
    let t ← renderCell c
    let ts ← renderRow cs
    Except.ok (t :: ts)) = Except.error e
  rw [h]
  rfl

theorem renderCard_head_error (row : List Cell) (rows : List (List Cell)) (e : PyErr)
    (h : renderRow row = Except.error e) : renderCard (row :: rows) = Except.error e := by
  show (do
    let r ← renderRow row
    let rs ← renderCard rows
    Except.ok (r :: rs)) = Except.error e
  rw [h]
  rfl

theorem generate_html_single_error (card : Card) (songs : List Song) (e : PyErr)
    (h : renderCard card = Except.error e) :
    generate_html [some card] songs = Except.error e := by
  have hne : ¬ (([some card] : List (Option Card)) = [] ∨
      none ∈ ([some card] : List (Option Card))) := by simp
  simp only [generate_html]
  rw [if_neg hne]
  have hro : ([some card] : List (Option Card)).reduceOption = [card] := rfl
  rw [hro]
  have hrc : renderCards [card] = Except.error e := by
    show (do
      let t ← renderCard card
      let ts ← renderCards []
      Except.ok (t :: ts)) = Except.error e
    rw [h]
    rfl
  rw [hrc]
  rfl

/-- C3 is a code bug: for every valid 24-song draw with the free space (so
any card the generator actually produces), rendering the card reads the
dict key number that create_single_card never stores (it stores only title
and artist, while the template of line 744 reads cell[number]), so
generate_html raises KeyError("number") instead of producing the document
the claim (and the comment at line 606) describes.  The theorem evaluates
the code at the failing inputs: the card is created, and generation on it
fails with that KeyError. -/
theorem c3_generate_html_keyerror (pool : List Song) (idxs : List Nat)
    (songs : List Song) (hnd : idxs.Nodup) (hlt : ∀ i ∈ idxs, i < pool.length)
    (hlen : idxs.length = 24) :
    create_single_card pool true idxs =
      some (toGrid (flatCells true (sampleByIdx pool idxs))) ∧
    generate_html [some (toGrid (flatCells true (sampleByIdx pool idxs)))] songs =
      Except.error (PyErr.KeyError "number") := by
  have hge : ¬ pool.length < 24 := by
    have hsub : idxs ⊆ List.range pool.length :=
      fun i hi => List.mem_range.mpr (hlt i hi)
    have := (List.subperm_of_subset hnd hsub).length_le
    simp only [List.length_range] at this
    omega
  have hsel24 : (sampleByIdx pool idxs).length = 24 := by
    rw [length_sampleByIdx pool idxs hlt, hlen]
  constructor
  · simp only [create_single_card]
    rw [if_neg (by simpa using hge)]
  · obtain ⟨s, rest, hsel⟩ : ∃ s rest, sampleByIdx pool idxs = s :: rest := by
      cases h : sampleByIdx pool idxs with
      | nil => rw [h] at hsel24; simp at hsel24
      | cons a t => exact ⟨a, t, rfl⟩
    rw [hsel]
    apply generate_html_single_error
    apply renderCard_head_error
    apply renderRow_head_error
    exact renderCell_cellOf s

/-- Witness for C3: the 24-song pool with the identity draw; the card is
built, and HTML generation on it fails with KeyError("number"). -/
theorem c3_generate_html_keyerror_witness :
    create_single_card pool24 true (List.range 24) =
      some (toGrid (flatCells true (sampleByIdx pool24 (List.range 24)))) ∧
    generate_html
        [some (toGrid (flatCells true (sampleByIdx pool24 (List.range 24))))] [] =
      Except.error (PyErr.KeyError "number") :=
  c3_generate_html_keyerror pool24 (List.range 24) [] (by decide) (by decide) (by decide)

/-! ## C1 and C10: iterating play_next_song -/

theorem filter_not_mem_of_disjoint {α : Type} [DecidableEq α] (t d : List α)
    (hdisj : t.Disjoint d) :
    (t ++ d).filter (fun s => decide (¬ s ∈ t)) = d := by
  rw [List.filter_append]
  have h1 : t.filter (fun s => decide (¬ s ∈ t)) = [] :=
    List.filter_eq_nil_iff.2 (by intro a ha; simp [ha])
  have h2 : d.filter (fun s => decide (¬ s ∈ t)) = d :=
    List.filter_eq_self.2 (by
      intro a ha
      simp only [decide_eq_true_eq]
      exact fun h => hdisj h ha)
  rw [h1, h2, List.nil_append]

theorem filter_not_mem_take {α : Type} [DecidableEq α] (l : List α)
    (hnd : l.Nodup) (n : Nat) :
    l.filter (fun s => decide (¬ s ∈ l.take n)) = l.drop n := by
  have hdisj : (l.take n).Disjoint (l.drop n) := by
    have h := hnd
    rw [← List.take_append_drop n l] at h
    exact (List.nodup_append.1 h).2.2
  calc l.filter (fun s => decide (¬ s ∈ l.take n))
      = (l.take n ++ l.drop n).filter (fun s => decide (¬ s ∈ l.take n)) := by
        rw [List.take_append_drop]
    _ = l.drop n := filter_not_mem_of_disjoint _ _ hdisj

theorem playedAfter_succ (order : List Song) (n : Nat) :
    playedAfter order (n + 1) =
      match order.filter (fun s => decide (¬ s ∈ playedAfter order n)) with
      | [] => playedAfter order n
      | s :: _ => playedAfter order n ++ [s] := rfl

theorem playedAfter_take (order : List Song) (hnd : order.Nodup) :
    ∀ n, n ≤ order.length → playedAfter order n = order.take n
  | 0, _ => by simp [playedAfter]
  | n + 1, h => by
      have hn : n ≤ order.length := by omega
      have hlt : n < order.length := by omega
      have ih := playedAfter_take order hnd n hn
      rw [playedAfter_succ, ih, filter_not_mem_take order hnd n,
        List.drop_eq_getElem_cons hlt]
      rw [List.take_succ, List.getElem?_eq_getElem hlt]
      rfl

theorem playedAfter_nodup (order : List Song) : ∀ n, (playedAfter order n).Nodup
  | 0 => List.nodup_nil
  | n + 1 => by
      rw [playedAfter_succ]
      cases hcase : order.filter
          (fun s => decide (¬ s ∈ playedAfter order n)) with
      | nil => exact playedAfter_nodup order n
      | cons s rest =>
          have hs : s ∈ order.filter
              (fun s => decide (¬ s ∈ playedAfter order n)) := by
            rw [hcase]; exact List.mem_cons_self s rest
          rw [List.mem_filter] at hs
          have hnotin : ¬ s ∈ playedAfter order n := by
            have := hs.2
            simpa using this
          rw [List.nodup_append]
          refine ⟨playedAfter_nodup order n, List.nodup_singleton s, ?_⟩
          intro a ha has
          have haeq : a = s := by simpa using has
          exact hnotin (haeq ▸ ha)

theorem playedAfter_subset (order : List Song) :
    ∀ n, ∀ a ∈ playedAfter order n, a ∈ order
  | 0, a, ha => by simp [playedAfter] at ha
  | n + 1, a, ha => by
      rw [playedAfter_succ] at ha
      cases hcase : order.filter
          (fun s => decide (¬ s ∈ playedAfter order n)) with
      | nil =>
          rw [hcase] at ha
          exact playedAfter_subset order n a ha
      | cons s rest =>
          rw [hcase] at ha
          rw [List.mem_append] at ha
          cases ha with
          | inl h => exact playedAfter_subset order n a h
          | inr h =>
              have : a = s := by simpa using h
              subst this
              have hs : a ∈ order.filter
                  (fun s => decide (¬ s ∈ playedAfter order n)) := by
                rw [hcase]; exact List.mem_cons_self _ _
              exact (List.mem_filter.1 hs).1

theorem play_next_complete (st : AppState) (ha : st.game_active = true)
    (hu : unplayed st = []) :
    play_next_song st =
      ({ st with game_active := false }, some PlayError.GameCompleteError) := by
  simp [play_next_song, ha, hu]

theorem play_next_success (st : AppState) (ha : st.game_active = true)
    (s : Song) (rest : List Song) (hu : unplayed st = s :: rest) :
    play_next_song st =
      ({ st with current_song := some s
                 played_songs := st.played_songs ++ [s]
                 is_playing := true }, none) := by
  simp [play_next_song, ha, hu]

theorem iterate_play_invariant (st : AppState) (hact : st.game_active = true)
    (hp : st.played_songs = []) :
    ∀ n, (∀ j, j < n →
        st.current_game_songs.filter
          (fun s => decide (¬ s ∈ playedAfter st.current_game_songs j)) ≠ []) →
      (iterate_play st n).played_songs = playedAfter st.current_game_songs n ∧
      (iterate_play st n).game_active = true ∧
      (iterate_play st n).current_game_songs = st.current_game_songs
  | 0, _ => ⟨by rw [iterate_play, hp]; rfl, by rw [iterate_play, hact], rfl⟩
  | n + 1, h => by
      obtain ⟨ih1, ih2, ih3⟩ :=
        iterate_play_invariant st hact hp n (fun j hj => h j (by omega))
      have hne := h n (by omega)
      have hunp : unplayed (iterate_play st n) =
          st.current_game_songs.filter
            (fun s => decide (¬ s ∈ playedAfter st.current_game_songs n)) := by
        rw [unplayed, ih3, ih1]
      cases hcase : st.current_game_songs.filter
          (fun s => decide (¬ s ∈ playedAfter st.current_game_songs n)) with
      | nil => exact absurd hcase hne
      | cons s rest =>
          have hps := play_next_success (iterate_play st n) ih2 s rest
            (by rw [hunp, hcase])
          have hit : iterate_play st (n + 1) = (play_next_song (iterate_play st n)).1 :=
            rfl
          rw [hit, hps]
          refine ⟨?_, ih2, ih3⟩
          show (iterate_play st n).played_songs ++ [s] =
            playedAfter st.current_game_songs (n + 1)
          rw [ih1, playedAfter_succ, hcase]

/-- A one-song active session for the C1 counterexample. -/
def exSt1 : AppState :=
  { initState with music_library := [exSong], current_game_songs := [exSong],
                   game_active := true, songs_per_game := 1 }

/-- C1 counterexample: with an order of length k = 1, after exactly k calls
played equals the order but game_active is still true - the session only
becomes inactive during the failing (k+1)-th call - refuting the part of
the claim that after exactly k calls the session is inactive. -/
theorem c1_counterexample :
    (iterate_play exSt1 1).played_songs = exSt1.current_game_songs ∧
    ¬ ((iterate_play exSt1 1).game_active = false) := by decide

/-- C1 (amended): for an active session with a duplicate-free order of
length k and nothing played, each of the first k calls succeeds and appends
the first not-yet-played song of the order, so after n calls played is the
length-n prefix of the order; after exactly k calls played equals the order
and the session is STILL ACTIVE; the (k+1)-th call fails with
GameCompleteError, sets active to false, and leaves played unchanged. -/
theorem c1_advance_sequence (st : AppState) (hact : st.game_active = true)
    (hplayed : st.played_songs = []) (hnd : st.current_game_songs.Nodup) :
    (∀ n, n ≤ st.current_game_songs.length →
       (iterate_play st n).played_songs = st.current_game_songs.take n) ∧
    (∀ n, n < st.current_game_songs.length →
       (play_next_song (iterate_play st n)).2 = none) ∧
    (iterate_play st st.current_game_songs.length).played_songs =
      st.current_game_songs ∧
    (iterate_play st st.current_game_songs.length).game_active = true ∧
    (play_next_song (iterate_play st st.current_game_songs.length)).2 =
      some PlayError.GameCompleteError ∧
    (play_next_song (iterate_play st st.current_game_songs.length)).1.played_songs =
      st.current_game_songs ∧
    (play_next_song (iterate_play st st.current_game_songs.length)).1.game_active =
      false := by
  have hne : ∀ j, j < st.current_game_songs.length →
      st.current_game_songs.filter
        (fun s => decide (¬ s ∈ playedAfter st.current_game_songs j)) ≠ [] := by
    intro j hj
    rw [playedAfter_take st.current_game_songs hnd j (le_of_lt hj),
      filter_not_mem_take st.current_game_songs hnd j]
    intro hnil
    have := congrArg List.length hnil
    simp at this
    omega
  have inv : ∀ n, n ≤ st.current_game_songs.length →
      (iterate_play st n).played_songs = playedAfter st.current_game_songs n ∧
      (iterate_play st n).game_active = true ∧
      (iterate_play st n).current_game_songs = st.current_game_songs :=
    fun n hn => iterate_play_invariant st hact hplayed n
      (fun j hj => hne j (by omega))
  have htake : ∀ n, n ≤ st.current_game_songs.length →
      (iterate_play st n).played_songs = st.current_game_songs.take n := by
    intro n hn
    rw [(inv n hn).1, playedAfter_take st.current_game_songs hnd n hn]
  have hplayk : (iterate_play st st.current_game_songs.length).played_songs =
      st.current_game_songs := by
    rw [htake _ le_rfl, List.take_length]
  have hunpk : unplayed (iterate_play st st.current_game_songs.length) = [] := by
    rw [unplayed, (inv _ le_rfl).2.2, hplayk]
    exact List.filter_eq_nil_iff.2 (by intro a ha; simp [ha])
  have hcomp := play_next_complete (iterate_play st st.current_game_songs.length)
    (inv _ le_rfl).2.1 hunpk
  refine ⟨htake, ?_, hplayk, (inv _ le_rfl).2.1, ?_, ?_, ?_⟩
  · intro n hn
    have hnlt := hne n hn
    cases hcase : st.current_game_songs.filter
        (fun s => decide (¬ s ∈ playedAfter st.current_game_songs n)) with
    | nil => exact absurd hcase hnlt
    | cons s rest =>
        have hu : unplayed (iterate_play st n) = s :: rest := by
          rw [unplayed, (inv n (le_of_lt hn)).2.2, (inv n (le_of_lt hn)).1, hcase]
        rw [play_next_success (iterate_play st n) (inv n (le_of_lt hn)).2.1 s rest hu]
  · rw [hcomp]
  · rw [hcomp]
    exact hplayk
  · rw [hcomp]

/-- Witness for C1 at the concrete one-song session exSt1 (k = 1). -/
theorem c1_advance_sequence_witness :
    (∀ n, n ≤ exSt1.current_game_songs.length →
       (iterate_play exSt1 n).played_songs = exSt1.current_game_songs.take n) ∧
    (∀ n, n < exSt1.current_game_songs.length →
       (play_next_song (iterate_play exSt1 n)).2 = none) ∧
    (iterate_play exSt1 exSt1.current_game_songs.length).played_songs =
      exSt1.current_game_songs ∧
    (iterate_play exSt1 exSt1.current_game_songs.length).game_active = true ∧
    (play_next_song (iterate_play exSt1 exSt1.current_game_songs.length)).2 =
      some PlayError.GameCompleteError ∧
    (play_next_song
        (iterate_play exSt1 exSt1.current_game_songs.length)).1.played_songs =
      exSt1.current_game_songs ∧
    (play_next_song
        (iterate_play exSt1 exSt1.current_game_songs.length)).1.game_active =
      false :=
  c1_advance_sequence exSt1 (by decide) (by decide) (by decide)

/-- C10: advance selects by record value-equality membership, so a song
already in played can never be selected again even if it occurs twice in
the order: for every active fresh session whose order contains duplicate
records, some m strictly below the order length exists such that the first
m calls all succeed and the (m+1)-th already fails with GameCompleteError -
the game completes after fewer than len(order) successful advances, so
played = order after len(order) advances needs a duplicate-free order. -/
theorem c10_duplicate_songs_early_complete (st : AppState)
    (hact : st.game_active = true) (hplayed : st.played_songs = [])
    (hdup : ¬ st.current_game_songs.Nodup) :
    (∀ (st2 : AppState) (s : Song), s ∈ st2.played_songs → ¬ s ∈ unplayed st2) ∧
    (∃ m, m < st.current_game_songs.length ∧
      (∀ n, n < m → (play_next_song (iterate_play st n)).2 = none) ∧
      (play_next_song (iterate_play st m)).2 = some PlayError.GameCompleteError) := by
  constructor
  · intro st2 s hs hin
    rw [unplayed, List.mem_filter] at hin
    have := hin.2
    simp only [decide_eq_true_eq] at this
    exact this hs
  · set order := st.current_game_songs with horder
    set D := order.dedup.length with hD
    have hDlt : D < order.length := dedup_length_lt_of_not_nodup order hdup
    have hex : ∃ n, order.filter
        (fun s => decide (¬ s ∈ playedAfter order n)) = [] := by
      by_contra hcon
      push_neg at hcon
      have grow : ∀ n, n ≤ D + 1 → (playedAfter order n).length = n := by
        intro n hn
        induction n with
        | zero => rfl
        | succ m ihm =>
            have h1 := ihm (by omega)
            have hnem := hcon m
            rw [playedAfter_succ]
            cases hcase : order.filter
                (fun s => decide (¬ s ∈ playedAfter order m)) with
            | nil => exact absurd hcase hnem
            | cons s rest => simp [h1]
      have hbound := nodup_length_le_dedup order (playedAfter order (D + 1))
        (playedAfter_nodup order (D + 1)) (playedAfter_subset order (D + 1))
      rw [grow (D + 1) le_rfl] at hbound
      omega
    have hstableD : order.filter
        (fun s => decide (¬ s ∈ playedAfter order (Nat.find hex))) = [] :=
      Nat.find_spec hex
    have hmin : ∀ j, j < Nat.find hex →
        order.filter (fun s => decide (¬ s ∈ playedAfter order j)) ≠ [] :=
      fun j hj => Nat.find_min hex hj
    have hfind_le : Nat.find hex ≤ D := by
      by_contra hcon
      push_neg at hcon
      have grow : ∀ n, n ≤ D + 1 → (playedAfter order n).length = n := by
        intro n hn
        induction n with
        | zero => rfl
        | succ m ihm =>
            have h1 := ihm (by omega)
            have hnem := hmin m (by omega)
            rw [playedAfter_succ]
            cases hcase : order.filter
                (fun s => decide (¬ s ∈ playedAfter order m)) with
            | nil => exact absurd hcase hnem
            | cons s rest => simp [h1]
      have hbound := nodup_length_le_dedup order (playedAfter order (D + 1))
        (playedAfter_nodup order (D + 1)) (playedAfter_subset order (D + 1))
      rw [grow (D + 1) le_rfl] at hbound
      omega
    refine ⟨Nat.find hex, by omega, ?_, ?_⟩
    · intro n hn
      obtain ⟨ih1, ih2, ih3⟩ := iterate_play_invariant st hact hplayed n
        (fun j hj => hmin j (by omega))
      cases hcase : order.filter
          (fun s => decide (¬ s ∈ playedAfter order n)) with
      | nil => exact absurd hcase (hmin n hn)
      | cons s rest =>
          have hu : unplayed (iterate_play st n) = s :: rest := by
            rw [unplayed, ih3, ih1, ← horder, hcase]
          rw [play_next_success (iterate_play st n) ih2 s rest hu]
    · obtain ⟨ih1, ih2, ih3⟩ := iterate_play_invariant st hact hplayed
        (Nat.find hex) (fun j hj => hmin j hj)
      have hu : unplayed (iterate_play st (Nat.find hex)) = [] := by
        rw [unplayed, ih3, ih1, ← horder, hstableD]
      rw [play_next_complete (iterate_play st (Nat.find hex)) ih2 hu]

/-- A fresh active session whose order holds the same song twice, for the
C10 witness. -/
def exSt2 : AppState :=
  { initState with current_game_songs := [exSong, exSong], game_active := true }

/-- Witness for C10 at the two-copy order [exSong, exSong]. -/
theorem c10_duplicate_songs_early_complete_witness :
    (∀ (st2 : AppState) (s : Song), s ∈ st2.played_songs → ¬ s ∈ unplayed st2) ∧
    (∃ m, m < exSt2.current_game_songs.length ∧
      (∀ n, n < m → (play_next_song (iterate_play exSt2 n)).2 = none) ∧
      (play_next_song (iterate_play exSt2 m)).2 =
        some PlayError.GameCompleteError) :=
  c10_duplicate_songs_early_complete exSt2 (by decide) (by decide) (by decide)
